import Mathlib

/-!
# Gmail-to-Sheets: verification of the processing pipeline

Shallow embedding of the repository's Python sources:

* `src/src/email_parser.py`  — `EmailParser.parse_email`, `_get_header`,
  `_get_email_body` (HTML-to-text conversion is an external library call,
  modelled as a function parameter `h2t`);
* `src/src/gmail_service.py` — the retry loop of `get_unread_emails` and the
  request it builds; `get_email_details` / `mark_email_as_read` outcomes are
  supplied by an environment oracle;
* `src/src/sheets_service.py` — the retry loop of `append_email_row`;
* `src/src/main.py`          — `EmailProcessor._load_state`, `_save_state`
  and the main loop `process_emails`;
* `src/config.py`            — the retry constants.

Network nondeterminism (what each API call returns on each attempt) is
represented by explicit oracle functions; the state of a run is passed
explicitly, and the calls the loop makes to the external gateways are
recorded in event lists so that "the run does not call X for id Y" is a
statement about the final state.
-/

namespace GmailToSheets

/-! ## Data model of a provider message (`email_parser.py`) -/

/-- The `body` field of a Gmail message part.  `data` is the decoded payload
(`base64.urlsafe_b64decode(...).decode("utf-8")` in the source); `none`
models the `"data" in part["body"]` check failing (key absent). -/
structure PartBody where
  data : Option String
deriving DecidableEq, Repr

/-- One element of `payload["parts"]`. -/
structure MessagePart where
  mimeType : String
  body : PartBody
deriving DecidableEq, Repr

/-- A Gmail message payload: the header list (name/value pairs), the optional
`parts` list (present exactly for multi-part messages — the
`"parts" in payload` check), and the top-level `body`. -/
structure Payload where
  headers : List (String × String)
  parts : Option (List MessagePart)
  body : PartBody
deriving DecidableEq, Repr

/-- A raw message as returned by `get_email_details`.  `payload = none`
models a malformed message object (missing `"payload"`/`"headers"` key),
which makes `parse_email` raise and return `None`. -/
structure GmailMessage where
  payload : Option Payload
deriving DecidableEq, Repr

/-- The dictionary returned by `EmailParser.parse_email`
(keys `from`, `subject`, `date`, `content`; `from` is a Lean keyword, hence
the field name `from_`). -/
structure ParsedEmail where
  from_ : String
  subject : String
  date : String
  content : String
deriving DecidableEq, Repr

/-- `EmailParser._get_header`: first header whose name matches exactly wins;
a missing header yields the empty string. -/
def get_header : List (String × String) → String → String
  | [], _ => ""
  | (n, v) :: rest, name => if n = name then v else get_header rest name

/-- The `for part in payload["parts"]` loop of `EmailParser._get_email_body`,
with `acc` the current value of the `body` variable.  A `text/plain` part
whose body carries `data` returns it immediately (`break`); a `text/plain`
part without `data` is passed over; a `text/html` part with `data` replaces
the accumulator by its converted text (`h2t` stands for
`EmailParser._html_to_text`, an external-library wrapper) and scanning
continues. -/
def bodyScan (h2t : String → String) : List MessagePart → String → String
  | [], acc => acc
  | p :: rest, acc =>
    if p.mimeType = "text/plain" then
      match p.body.data with
      | some d => d
      | none => bodyScan h2t rest acc
    else if p.mimeType = "text/html" then
      match p.body.data with
      | some d => bodyScan h2t rest (h2t d)
      | none => bodyScan h2t rest acc
    else
      bodyScan h2t rest acc

/-- Python's `str.strip()`: remove leading and trailing whitespace. -/
def pyStrip (s : String) : String :=
  String.mk
    (((s.toList.dropWhile Char.isWhitespace).reverse.dropWhile
        Char.isWhitespace).reverse)

/-- `EmailParser._get_email_body`: multi-part messages are scanned by
`bodyScan` starting from `body = ""`; single-part messages decode the
top-level body (empty string when `data` is absent).  The result is
stripped of surrounding whitespace (`body.strip()`). -/
def get_email_body (h2t : String → String) (payload : Payload) : String :=
  match payload.parts with
  | some parts => pyStrip (bodyScan h2t parts "")
  | none =>
    pyStrip
      (match payload.body.data with
       | some d => d
       | none => "")

/-- `EmailParser.parse_email`: extracts `From`/`Subject`/`Date` headers and
the body; any exception (modelled by a missing payload) is caught and
yields `none`. -/
def parse_email (h2t : String → String) (message : GmailMessage) : Option ParsedEmail :=
  match message.payload with
  | none => none
  | some payload =>
    some
      { from_ := get_header payload.headers "From"
        subject := get_header payload.headers "Subject"
        date := get_header payload.headers "Date"
        content := get_email_body h2t payload }

/-! ## Row construction (`main.py`, lines 107–112) -/

/-- The `values` list built in `EmailProcessor.process_emails`:
`[parsed["from"], parsed["subject"], parsed["date"], parsed["content"][:1000]]`.
Python's `s[:1000]` is the first `min 1000 (length s)` characters, i.e.
`String.take`. -/
def buildRow (parsed : ParsedEmail) : List String :=
  [parsed.from_, parsed.subject, parsed.date, parsed.content.take 1000]

/-! ## Substring test (Python's `in` operator on strings) -/

/-- Bool test: is `needle` a prefix of `hay`? -/
def charsPre : List Char → List Char → Bool
  | [], _ => true
  | _ :: _, [] => false
  | a :: as, b :: bs => a == b && charsPre as bs

/-- Bool test: is `needle` a contiguous substring of `hay`?  Models Python's
`needle in hay`. -/
def charsSub (needle : List Char) : List Char → Bool
  | [] => needle.isEmpty
  | b :: bs => charsPre needle (b :: bs) || charsSub needle bs

/-- `needle in hay` on strings. -/
def strContains (hay needle : String) : Bool :=
  charsSub needle.toList hay.toList

/-! ## Retry constants (`config.py`) and retry loops -/

/-- `config.MAX_RETRIES` (also the Python default argument value). -/
def MAX_RETRIES : Nat := 3

/-- `config.RETRY_DELAY`, in seconds (also the Python default argument
value). -/
def RETRY_DELAY : Nat := 2

/-- Observable outcome of a retried gateway call: the returned value, how
many attempts were actually made, and the total seconds spent in
`time.sleep` between attempts. -/
structure RetryOutcome (α : Type) where
  result : α
  attempts : Nat
  sleepTotal : Nat
deriving DecidableEq, Repr

/-- The `for attempt in range(max_retries)` loop of
`GmailService.get_unread_emails`.  `api attempt` is the provider's response
on that attempt (`none` = `GoogleAPIError` raised).  On success the message
list is returned at once; on error the loop sleeps `retry_delay` and
retries, except on the last attempt where the error is re-raised
(`Except.error`).  The fuel argument is the number of attempts remaining;
the `0` case is only reached when the `range` is empty at entry
(`max_retries = 0`), in which case the loop body never runs and the
function returns the initial `emails = []`. -/
def getUnreadGo (api : Nat → Option (List String)) (retry_delay : Nat) :
    Nat → Nat → RetryOutcome (Except String (List String))
  | _, 0 => ⟨Except.ok [], 0, 0⟩
  | attempt, remaining + 1 =>
    match api attempt with
    | some msgs => ⟨Except.ok msgs, 1, 0⟩
    | none =>
      if remaining = 0 then ⟨Except.error "GoogleAPIError", 1, 0⟩
      else
        let r := getUnreadGo api retry_delay (attempt + 1) remaining
        ⟨r.result, r.attempts + 1, r.sleepTotal + retry_delay⟩

/-- `GmailService.get_unread_emails(max_retries, retry_delay)` over an
attempt oracle. -/
def get_unread_emails (api : Nat → Option (List String))
    (max_retries retry_delay : Nat) : RetryOutcome (Except String (List String)) :=
  getUnreadGo api retry_delay 0 max_retries

/-- The `for attempt in range(max_retries)` loop of
`SheetsService.append_email_row`.  `api attempt = true` means the append
call succeeded on that attempt.  On success returns `True` at once; on
error sleeps and retries, except on the last attempt where it returns
`False`. -/
def appendGo (api : Nat → Bool) (retry_delay : Nat) :
    Nat → Nat → RetryOutcome Bool
  | _, 0 => ⟨false, 0, 0⟩
  | attempt, remaining + 1 =>
    if api attempt then ⟨true, 1, 0⟩
    else if remaining = 0 then ⟨false, 1, 0⟩
    else
      let r := appendGo api retry_delay (attempt + 1) remaining
      ⟨r.result, r.attempts + 1, r.sleepTotal + retry_delay⟩

/-- `SheetsService.append_email_row(spreadsheet_id, sheet_name, values,
max_retries, retry_delay)` over an attempt oracle.  The spreadsheet id,
sheet name and row values parametrise the network call but do not influence
the control flow of the retry loop. -/
def append_email_row (spreadsheet_id sheet_name : String) (values : List String)
    (api : Nat → Bool) (max_retries retry_delay : Nat) : RetryOutcome Bool :=
  let _ := spreadsheet_id
  let _ := sheet_name
  let _ := values
  appendGo api retry_delay 0 max_retries

/-! ## The unread-listing request (`gmail_service.py`, lines 70–80) -/

/-- The parameters of the `users().messages().list(...)` call. -/
structure ListRequest where
  userId : String
  q : String
  maxResults : Nat
deriving DecidableEq, Repr

/-- The request built by `GmailService.get_unread_emails`:
`list(userId="me", q="is:unread", maxResults=100)`. -/
def unreadListRequest : ListRequest :=
  { userId := "me", q := "is:unread", maxResults := 100 }

/-- Modelled from the spec: the mailbox gateway's list endpoint
(`listUnread() -> [MessageId]` in the spec's collaborator interface) is
external to this repository; a list request returns at most `maxResults`
of the unread message ids held by the provider, in provider order. -/
def gmailListEndpoint (serverUnread : List String) (req : ListRequest) : List String :=
  serverUnread.take req.maxResults

/-! ## State file (`main.py`, `_load_state` / `_save_state`) -/

/-- The persisted JSON document:
`{"processed_ids": [...], "last_updated": <timestamp>}`. -/
structure StateFile where
  processed_ids : List String
  last_updated : String
deriving DecidableEq, Repr

/-- `EmailProcessor._save_state`: the document written to the state file
(whole-file overwrite).  `list(self.processed_ids)` enumerates the Python
set in some unspecified order; the sorted enumeration is one such order
(the round-trip theorem quantifies over arbitrary enumerations). -/
def save_file (ids : Finset String) (now : String) : StateFile :=
  { processed_ids := ids.sort (· ≤ ·), last_updated := now }

/-- `EmailProcessor._load_state`: a missing or unreadable state file
(`none`) degrades to the empty set; otherwise
`set(data.get("processed_ids", []))`. -/
def load_state : Option StateFile → Finset String
  | none => ∅
  | some f => f.processed_ids.toFinset

/-! ## The processing loop (`main.py`, `process_emails`) -/

/-- Static configuration read from `config.py`. -/
structure Config where
  spreadsheetId : String
  sheetName : String
  subjectFilter : String

/-- The environment of one run: the ids returned by the unread listing
(each `email_data["id"]`), oracles for the outcome of each external call
the loop makes, the HTML-to-text conversion, and the timestamp
`datetime.now().isoformat()` used when saving state. -/
structure Env where
  unread : List String
  fetchResult : String → Option GmailMessage
  appendResult : String → List String → Bool
  markResult : String → Bool
  h2t : String → String
  now : String

/-- The mutable state of a run: the in-memory `self.processed_ids` set, the
two counters, and event logs of the external calls made so far
(`get_email_details`, `append_email_row`, `mark_email_as_read`). -/
structure RunState where
  processedIds : Finset String
  processedCount : Nat
  skippedCount : Nat
  fetchCalls : List String
  appendCalls : List (String × List String)
  markCalls : List String
deriving DecidableEq

/-- State at loop entry. -/
def initState (ids : Finset String) : RunState :=
  { processedIds := ids, processedCount := 0, skippedCount := 0
    fetchCalls := [], appendCalls := [], markCalls := [] }

/-- One iteration of the `for email_data in emails` loop of
`EmailProcessor.process_emails` (lines 80–125).  In source order:
membership test against `self.processed_ids` (skip + count), fetch of the
full message (silent skip on `None`), parse (skip on `None`), optional
subject filter (skip + count), append of the built row, and on append
success: mark-read (return value discarded), insertion into
`self.processed_ids`, increment of the processed counter. -/
def processOne (cfg : Config) (env : Env) (s : RunState) (message_id : String) : RunState :=
  if message_id ∈ s.processedIds then
    { s with skippedCount := s.skippedCount + 1 }
  else
    match env.fetchResult message_id with
    | none => { s with fetchCalls := s.fetchCalls ++ [message_id] }
    | some message =>
      match parse_email env.h2t message with
      | none => { s with fetchCalls := s.fetchCalls ++ [message_id] }
      | some parsed =>
        if cfg.subjectFilter ≠ "" ∧ strContains parsed.subject cfg.subjectFilter = false then
          { s with fetchCalls := s.fetchCalls ++ [message_id]
                   skippedCount := s.skippedCount + 1 }
        else if env.appendResult message_id (buildRow parsed) then
          -- `mark_email_as_read(message_id)` is called here; its Boolean
          -- return value is discarded by the source, so only the call is
          -- recorded.
          { s with fetchCalls := s.fetchCalls ++ [message_id]
                   appendCalls := s.appendCalls ++ [(message_id, buildRow parsed)]
                   markCalls := s.markCalls ++ [message_id]
                   processedIds := insert message_id s.processedIds
                   processedCount := s.processedCount + 1 }
        else
          { s with fetchCalls := s.fetchCalls ++ [message_id]
                   appendCalls := s.appendCalls ++ [(message_id, buildRow parsed)] }

/-- `EmailProcessor.process_emails`: on an empty unread listing the method
returns early (`if not emails: return`) — no loop, no summary counters, no
state save (both components `none`).  Otherwise the loop runs over every
listed id and `_save_state` writes the full set afterwards. -/
def process_emails (cfg : Config) (env : Env) (initIds : Finset String) :
    Option RunState × Option StateFile :=
  if env.unread = [] then (none, none)
  else
    let final := env.unread.foldl (processOne cfg env) (initState initIds)
    (some final, some (save_file final.processedIds env.now))


/-! ## Anatomy of one loop iteration -/

section StepLemmas

variable (cfg : Config) (env : Env) (s : RunState) (id : String)

/-- Step for an already-processed id: skip and count — the membership test
is the first gate, so no fetch, append or mark-read call happens. -/
lemma processOne_skip_eq (h : id ∈ s.processedIds) :
    processOne cfg env s id = { s with skippedCount := s.skippedCount + 1 } := by
  unfold processOne
  rw [if_pos h]

/-- Step when the full-message fetch returns nothing: only the fetch call is
recorded; counters, logs and the processed set are untouched. -/
lemma processOne_fetchMiss_eq (h : id ∉ s.processedIds)
    (hf : env.fetchResult id = none) :
    processOne cfg env s id = { s with fetchCalls := s.fetchCalls ++ [id] } := by
  simp only [processOne, if_neg h, hf]

/-- Step when the message is fetched but parsing fails: same silent skip as
a fetch miss. -/
lemma processOne_parseMiss_eq (h : id ∉ s.processedIds) {m : GmailMessage}
    (hf : env.fetchResult id = some m) (hp : parse_email env.h2t m = none) :
    processOne cfg env s id = { s with fetchCalls := s.fetchCalls ++ [id] } := by
  simp only [processOne, if_neg h, hf, hp]

/-- Step when the subject filter rejects the parsed message. -/
lemma processOne_filtered_eq (h : id ∉ s.processedIds) {m : GmailMessage}
    {parsed : ParsedEmail}
    (hf : env.fetchResult id = some m) (hp : parse_email env.h2t m = some parsed)
    (hfil : cfg.subjectFilter ≠ "" ∧ strContains parsed.subject cfg.subjectFilter = false) :
    processOne cfg env s id =
      { s with fetchCalls := s.fetchCalls ++ [id]
               skippedCount := s.skippedCount + 1 } := by
  simp only [processOne, if_neg h, hf, hp, if_pos hfil]

/-- Step when the sheet append exhausts its retries: the append call is
recorded, but the processed set, both counters and the mark-read log are
unchanged — the id stays unprocessed for the next run. -/
lemma processOne_appendFail_eq (h : id ∉ s.processedIds) {m : GmailMessage}
    {parsed : ParsedEmail}
    (hf : env.fetchResult id = some m) (hp : parse_email env.h2t m = some parsed)
    (hfil : ¬(cfg.subjectFilter ≠ "" ∧ strContains parsed.subject cfg.subjectFilter = false))
    (ha : env.appendResult id (buildRow parsed) = false) :
    processOne cfg env s id =
      { s with fetchCalls := s.fetchCalls ++ [id]
               appendCalls := s.appendCalls ++ [(id, buildRow parsed)] } := by
  simp only [processOne, if_neg h, hf, hp, if_neg hfil, ha, Bool.false_eq_true, if_false]

/-- Step when the sheet append succeeds: mark-read is called (result
discarded), the id enters the processed set, and the processed counter
increments. -/
lemma processOne_success_eq (h : id ∉ s.processedIds) {m : GmailMessage}
    {parsed : ParsedEmail}
    (hf : env.fetchResult id = some m) (hp : parse_email env.h2t m = some parsed)
    (hfil : ¬(cfg.subjectFilter ≠ "" ∧ strContains parsed.subject cfg.subjectFilter = false))
    (ha : env.appendResult id (buildRow parsed) = true) :
    processOne cfg env s id =
      { s with fetchCalls := s.fetchCalls ++ [id]
               appendCalls := s.appendCalls ++ [(id, buildRow parsed)]
               markCalls := s.markCalls ++ [id]
               processedIds := insert id s.processedIds
               processedCount := s.processedCount + 1 } := by
  simp only [processOne, if_neg h, hf, hp, if_neg hfil, ha, if_true]

/-- Inversion: every iteration of the loop body lands in exactly one of the
five terminal shapes of the spec's per-message state machine (already
processed / fetch-or-parse miss / filtered out / append failed /
success). -/
lemma processOne_inv :
    (id ∈ s.processedIds ∧
      processOne cfg env s id = { s with skippedCount := s.skippedCount + 1 }) ∨
    (id ∉ s.processedIds ∧
      processOne cfg env s id = { s with fetchCalls := s.fetchCalls ++ [id] }) ∨
    (id ∉ s.processedIds ∧
      processOne cfg env s id =
        { s with fetchCalls := s.fetchCalls ++ [id]
                 skippedCount := s.skippedCount + 1 }) ∨
    (id ∉ s.processedIds ∧
      (∃ parsed, env.appendResult id (buildRow parsed) = false ∧
        processOne cfg env s id =
          { s with fetchCalls := s.fetchCalls ++ [id]
                   appendCalls := s.appendCalls ++ [(id, buildRow parsed)] })) ∨
    (id ∉ s.processedIds ∧
      (∃ parsed, env.appendResult id (buildRow parsed) = true ∧
        processOne cfg env s id =
          { s with fetchCalls := s.fetchCalls ++ [id]
                   appendCalls := s.appendCalls ++ [(id, buildRow parsed)]
                   markCalls := s.markCalls ++ [id]
                   processedIds := insert id s.processedIds
                   processedCount := s.processedCount + 1 })) := by
  by_cases hmem : id ∈ s.processedIds
  · exact Or.inl ⟨hmem, processOne_skip_eq cfg env s id hmem⟩
  cases hf : env.fetchResult id with
  | none =>
    exact Or.inr (Or.inl ⟨hmem, processOne_fetchMiss_eq cfg env s id hmem hf⟩)
  | some m =>
    cases hp : parse_email env.h2t m with
    | none =>
      exact Or.inr (Or.inl ⟨hmem, processOne_parseMiss_eq cfg env s id hmem hf hp⟩)
    | some parsed =>
      by_cases hfil :
          cfg.subjectFilter ≠ "" ∧ strContains parsed.subject cfg.subjectFilter = false
      · exact Or.inr (Or.inr (Or.inl
          ⟨hmem, processOne_filtered_eq cfg env s id hmem hf hp hfil⟩))
      · by_cases ha : env.appendResult id (buildRow parsed) = true
        · exact Or.inr (Or.inr (Or.inr (Or.inr ⟨hmem, parsed, ha,
            processOne_success_eq cfg env s id hmem hf hp hfil ha⟩)))
        · exact Or.inr (Or.inr (Or.inr (Or.inl ⟨hmem, parsed,
            Bool.not_eq_true _ ▸ ha,
            processOne_appendFail_eq cfg env s id hmem hf hp hfil
              (Bool.not_eq_true _ ▸ ha)⟩)))

/-- The in-memory processed set only grows during an iteration. -/
lemma processOne_ids_mono :
    s.processedIds ⊆ (processOne cfg env s id).processedIds := by
  rcases processOne_inv cfg env s id with
    ⟨-, he⟩ | ⟨-, he⟩ | ⟨-, he⟩ | ⟨-, _p, _ha, he⟩ | ⟨-, _p, _ha, he⟩ <;>
  rw [he] <;>
  first
    | exact fun x hx => hx
    | exact Finset.subset_insert _ _

/-- An iteration adds at most its own id to the processed set. -/
lemma processOne_ids_le_insert :
    (processOne cfg env s id).processedIds ⊆ insert id s.processedIds := by
  rcases processOne_inv cfg env s id with
    ⟨-, he⟩ | ⟨-, he⟩ | ⟨-, he⟩ | ⟨-, _p, _ha, he⟩ | ⟨-, _p, _ha, he⟩ <;>
  rw [he] <;>
  first
    | exact Finset.subset_insert _ _
    | exact fun x hx => hx

/-- A fetch call recorded during an iteration is for that iteration's id. -/
lemma processOne_fetch_mem (y : String)
    (h : y ∈ (processOne cfg env s id).fetchCalls) : y ∈ s.fetchCalls ∨ y = id := by
  rcases processOne_inv cfg env s id with
    ⟨-, he⟩ | ⟨-, he⟩ | ⟨-, he⟩ | ⟨-, _p, _ha, he⟩ | ⟨-, _p, _ha, he⟩ <;>
  rw [he] at h <;> simp at h <;> tauto

/-- An append call recorded during an iteration is for that iteration's id. -/
lemma processOne_append_mem (y : String) (v : List String)
    (h : (y, v) ∈ (processOne cfg env s id).appendCalls) :
    (y, v) ∈ s.appendCalls ∨ y = id := by
  rcases processOne_inv cfg env s id with
    ⟨-, he⟩ | ⟨-, he⟩ | ⟨-, he⟩ | ⟨-, _p, _ha, he⟩ | ⟨-, _p, _ha, he⟩ <;>
  rw [he] at h <;> simp at h <;> tauto

/-- A mark-read call recorded during an iteration is for that iteration's
id. -/
lemma processOne_mark_mem (y : String)
    (h : y ∈ (processOne cfg env s id).markCalls) : y ∈ s.markCalls ∨ y = id := by
  rcases processOne_inv cfg env s id with
    ⟨-, he⟩ | ⟨-, he⟩ | ⟨-, he⟩ | ⟨-, _p, _ha, he⟩ | ⟨-, _p, _ha, he⟩ <;>
  rw [he] at h <;> simp at h <;> tauto

/-- The skipped counter never decreases. -/
lemma processOne_skipped_mono :
    s.skippedCount ≤ (processOne cfg env s id).skippedCount := by
  rcases processOne_inv cfg env s id with
    ⟨-, he⟩ | ⟨-, he⟩ | ⟨-, he⟩ | ⟨-, _p, _ha, he⟩ | ⟨-, _p, _ha, he⟩ <;>
  rw [he] <;> dsimp only <;> omega

end StepLemmas

/-! ## Run-level invariants -/

/-- Over a whole run, the in-memory processed set only grows. -/
lemma foldl_ids_mono (cfg : Config) (env : Env) :
    ∀ (l : List String) (s : RunState),
      s.processedIds ⊆ (List.foldl (processOne cfg env) s l).processedIds := by
  intro l
  induction l with
  | nil => intro s; exact fun x hx => hx
  | cons x xs ih =>
    intro s
    simp only [List.foldl_cons]
    exact fun a ha => ih (processOne cfg env s x) (processOne_ids_mono cfg env s x ha)

/-- A run never issues a fetch, append or mark-read call for an id that is
in the processed set when the loop reaches the first occurrence of that id
(in particular, for any id processed before the run started). -/
lemma foldl_no_calls (cfg : Config) (env : Env) (initIds : Finset String)
    (id : String) (hid : id ∈ initIds) :
    ∀ (l : List String) (s : RunState),
      initIds ⊆ s.processedIds →
      id ∉ s.fetchCalls → (∀ v, (id, v) ∉ s.appendCalls) → id ∉ s.markCalls →
      id ∉ (List.foldl (processOne cfg env) s l).fetchCalls ∧
      (∀ v, (id, v) ∉ (List.foldl (processOne cfg env) s l).appendCalls) ∧
      id ∉ (List.foldl (processOne cfg env) s l).markCalls := by
  intro l
  induction l with
  | nil => intro s _ h2 h3 h4; exact ⟨h2, h3, h4⟩
  | cons x xs ih =>
    intro s h1 h2 h3 h4
    simp only [List.foldl_cons]
    by_cases hx : x ∈ s.processedIds
    · rw [processOne_skip_eq cfg env s x hx]
      exact ih _ h1 h2 h3 h4
    · have hne : id ≠ x := fun hcontra => hx (hcontra ▸ h1 hid)
      exact ih (processOne cfg env s x)
        (fun a ha => processOne_ids_mono cfg env s x (h1 ha))
        (fun hin => by
          rcases processOne_fetch_mem cfg env s x id hin with h | h
          · exact h2 h
          · exact hne h)
        (fun v hin => by
          rcases processOne_append_mem cfg env s x id v hin with h | h
          · exact h3 v h
          · exact hne h)
        (fun hin => by
          rcases processOne_mark_mem cfg env s x id hin with h | h
          · exact h4 h
          · exact hne h)

/-- Each listed id that is already in the starting processed set contributes
(at least) one increment to the skipped counter. -/
lemma foldl_skipped_ge (cfg : Config) (env : Env) (initIds : Finset String) :
    ∀ (l : List String) (s : RunState), initIds ⊆ s.processedIds →
      s.skippedCount + l.countP (fun x => decide (x ∈ initIds)) ≤
        (List.foldl (processOne cfg env) s l).skippedCount := by
  intro l
  induction l with
  | nil => intro s _; simp
  | cons x xs ih =>
    intro s h1
    simp only [List.foldl_cons, List.countP_cons]
    by_cases hx : x ∈ initIds
    · have hmem : x ∈ s.processedIds := h1 hx
      rw [processOne_skip_eq cfg env s x hmem]
      have := ih { s with skippedCount := s.skippedCount + 1 } h1
      simp [hx] at *
      omega
    · have h1' : initIds ⊆ (processOne cfg env s x).processedIds :=
        fun a ha => processOne_ids_mono cfg env s x (h1 ha)
      have := ih (processOne cfg env s x) h1'
      have hmono := processOne_skipped_mono cfg env s x
      simp [hx] at *
      omega

/-- If every append for a given id fails, one iteration on any other id (or
on that id itself) neither records the id as processed nor marks it read. -/
lemma foldl_append_fail_inv (cfg : Config) (env : Env) (id : String)
    (hfail : ∀ v, env.appendResult id v = false) :
    ∀ (l : List String) (s : RunState),
      id ∉ s.processedIds → id ∉ s.markCalls →
      id ∉ (List.foldl (processOne cfg env) s l).processedIds ∧
      id ∉ (List.foldl (processOne cfg env) s l).markCalls := by
  intro l
  induction l with
  | nil => intro s h1 h2; exact ⟨h1, h2⟩
  | cons x xs ih =>
    intro s h1 h2
    simp only [List.foldl_cons]
    by_cases hx : x = id
    · subst hx
      rcases processOne_inv cfg env s x with
        ⟨hm, -⟩ | ⟨-, he⟩ | ⟨-, he⟩ | ⟨-, _p, -, he⟩ | ⟨-, _p, ha, -⟩
      · exact absurd hm h1
      · exact ih _ (by rw [he]; exact h1) (by rw [he]; exact h2)
      · exact ih _ (by rw [he]; exact h1) (by rw [he]; exact h2)
      · exact ih _ (by rw [he]; exact h1) (by rw [he]; exact h2)
      · rw [hfail (buildRow _p)] at ha; exact absurd ha (by simp)
    · have hids : id ∉ (processOne cfg env s x).processedIds := fun hin => by
        rcases Finset.mem_insert.mp (processOne_ids_le_insert cfg env s x hin) with h | h
        · exact hx h.symm
        · exact h1 h
      have hmarks : id ∉ (processOne cfg env s x).markCalls := fun hin => by
        rcases processOne_mark_mem cfg env s x id hin with h | h
        · exact h2 h
        · exact hx h.symm
      exact ih _ hids hmarks

/-! ## Retry loop facts -/

/-- First success wins: if attempts `0..k-1` (relative to `attempt`) raise
and attempt `k` succeeds within the budget, the unread-listing retry loop
returns that success after `k + 1` attempts and `k` sleeps. -/
lemma getUnreadGo_success (api : Nat → Option (List String)) (d : Nat) :
    ∀ (remaining attempt k : Nat) (v : List String), k < remaining →
      (∀ j, j < k → api (attempt + j) = none) → api (attempt + k) = some v →
      getUnreadGo api d attempt remaining = ⟨Except.ok v, k + 1, k * d⟩ := by
  intro remaining
  induction remaining with
  | zero => intro attempt k v hk; omega
  | succ r ih =>
    intro attempt k v hk hfails hsucc
    cases k with
    | zero =>
      have h0 : api attempt = some v := by simpa using hsucc
      simp [getUnreadGo, h0]
    | succ k =>
      have h0 : api attempt = none := by simpa using hfails 0 (Nat.succ_pos k)
      have hr : r ≠ 0 := by omega
      have hrec := ih (attempt + 1) k v (by omega)
        (fun j hj => by
          have := hfails (j + 1) (by omega)
          simpa [Nat.add_assoc, Nat.add_comm, Nat.add_left_comm] using this)
        (by
          have := hsucc
          simpa [Nat.add_assoc, Nat.add_comm, Nat.add_left_comm] using this)
      simp only [getUnreadGo, h0, if_neg hr, hrec]
      exact congrArg _ (by ring)

/-- Exhaustion: if every attempt within the budget raises, the
unread-listing retry loop re-raises after `remaining` attempts and
`remaining - 1` sleeps. -/
lemma getUnreadGo_exhaust (api : Nat → Option (List String)) (d : Nat) :
    ∀ (remaining attempt : Nat), 0 < remaining →
      (∀ j, j < remaining → api (attempt + j) = none) →
      getUnreadGo api d attempt remaining =
        ⟨Except.error "GoogleAPIError", remaining, (remaining - 1) * d⟩ := by
  intro remaining
  induction remaining with
  | zero => intro attempt h; omega
  | succ r ih =>
    intro attempt _ hfails
    have h0 : api attempt = none := by simpa using hfails 0 (Nat.succ_pos r)
    cases Nat.eq_zero_or_pos r with
    | inl hr0 =>
      subst hr0
      simp [getUnreadGo, h0]
    | inr hrpos =>
      have hrec := ih (attempt + 1) hrpos
        (fun j hj => by
          have := hfails (j + 1) (by omega)
          simpa [Nat.add_assoc, Nat.add_comm, Nat.add_left_comm] using this)
      simp only [getUnreadGo, h0, if_neg (Nat.pos_iff_ne_zero.mp hrpos), hrec]
      refine congrArg _ ?_
      have : r - 1 + 1 = r := Nat.succ_pred_eq_of_pos hrpos
      calc (r - 1) * d + d = (r - 1 + 1) * d := by ring
        _ = r * d := by rw [this]

/-- The unread-listing retry loop never makes more attempts than its
budget. -/
lemma getUnreadGo_attempts_le (api : Nat → Option (List String)) (d : Nat) :
    ∀ (remaining attempt : Nat),
      (getUnreadGo api d attempt remaining).attempts ≤ remaining := by
  intro remaining
  induction remaining with
  | zero => intro attempt; simp [getUnreadGo]
  | succ r ih =>
    intro attempt
    cases h : api attempt with
    | some v => simp [getUnreadGo, h]
    | none =>
      by_cases hr : r = 0
      · simp [getUnreadGo, h, hr]
      · have := ih (attempt + 1)
        simp only [getUnreadGo, h, if_neg hr]
        exact Nat.succ_le_succ this

/-- First success wins for the sheet-append retry loop. -/
lemma appendGo_success (api : Nat → Bool) (d : Nat) :
    ∀ (remaining attempt k : Nat), k < remaining →
      (∀ j, j < k → api (attempt + j) = false) → api (attempt + k) = true →
      appendGo api d attempt remaining = ⟨true, k + 1, k * d⟩ := by
  intro remaining
  induction remaining with
  | zero => intro attempt k hk; omega
  | succ r ih =>
    intro attempt k hk hfails hsucc
    cases k with
    | zero =>
      have h0 : api attempt = true := by simpa using hsucc
      simp [appendGo, h0]
    | succ k =>
      have h0 : api attempt = false := by simpa using hfails 0 (Nat.succ_pos k)
      have hr : r ≠ 0 := by omega
      have hrec := ih (attempt + 1) k (by omega)
        (fun j hj => by
          have := hfails (j + 1) (by omega)
          simpa [Nat.add_assoc, Nat.add_comm, Nat.add_left_comm] using this)
        (by
          have := hsucc
          simpa [Nat.add_assoc, Nat.add_comm, Nat.add_left_comm] using this)
      simp only [appendGo, h0, Bool.false_eq_true, if_false, if_neg hr, hrec]
      exact congrArg _ (by ring)

/-- Exhaustion: if every attempt within the budget fails, the sheet-append
retry loop returns the failure signal `false` after `remaining` attempts
and `remaining - 1` sleeps. -/
lemma appendGo_exhaust (api : Nat → Bool) (d : Nat) :
    ∀ (remaining attempt : Nat), 0 < remaining →
      (∀ j, j < remaining → api (attempt + j) = false) →
      appendGo api d attempt remaining = ⟨false, remaining, (remaining - 1) * d⟩ := by
  intro remaining
  induction remaining with
  | zero => intro attempt h; omega
  | succ r ih =>
    intro attempt _ hfails
    have h0 : api attempt = false := by simpa using hfails 0 (Nat.succ_pos r)
    cases Nat.eq_zero_or_pos r with
    | inl hr0 =>
      subst hr0
      simp [appendGo, h0]
    | inr hrpos =>
      have hrec := ih (attempt + 1) hrpos
        (fun j hj => by
          have := hfails (j + 1) (by omega)
          simpa [Nat.add_assoc, Nat.add_comm, Nat.add_left_comm] using this)
      simp only [appendGo, h0, Bool.false_eq_true, if_false,
        if_neg (Nat.pos_iff_ne_zero.mp hrpos), hrec]
      refine congrArg _ ?_
      have hr1 : r - 1 + 1 = r := Nat.succ_pred_eq_of_pos hrpos
      calc (r - 1) * d + d = (r - 1 + 1) * d := by ring
        _ = r * d := by rw [hr1]

/-- The sheet-append retry loop never makes more attempts than its
budget. -/
lemma appendGo_attempts_le (api : Nat → Bool) (d : Nat) :
    ∀ (remaining attempt : Nat),
      (appendGo api d attempt remaining).attempts ≤ remaining := by
  intro remaining
  induction remaining with
  | zero => intro attempt; simp [appendGo]
  | succ r ih =>
    intro attempt
    cases h : api attempt with
    | true => simp [appendGo, h]
    | false =>
      by_cases hr : r = 0
      · simp [appendGo, h, hr]
      · have := ih (attempt + 1)
        simp only [appendGo, h, Bool.false_eq_true, if_false, if_neg hr]
        exact Nat.succ_le_succ this

/-! ## Body extraction facts -/

/-- A part that the scan's first branch accepts: `text/plain` mime type AND
a present `data` field (`"data" in part["body"]`). -/
def isPlainData (p : MessagePart) : Bool :=
  p.mimeType == "text/plain" && p.body.data.isSome

/-- A part the HTML branch converts: `text/html` mime type AND a present
`data` field. -/
def isHtmlData (p : MessagePart) : Bool :=
  p.mimeType == "text/html" && p.body.data.isSome

/-- The first `text/plain` part carrying data stops the scan and wins,
whatever came before it (including converted HTML parts) and whatever
follows. -/
lemma bodyScan_plain_wins (h2t : String → String) :
    ∀ (pre : List MessagePart) (p : MessagePart) (post : List MessagePart)
      (d : String) (acc : String),
      (∀ q ∈ pre, isPlainData q = false) →
      p.mimeType = "text/plain" → p.body.data = some d →
      bodyScan h2t (pre ++ p :: post) acc = d := by
  intro pre
  induction pre with
  | nil =>
    intro p post d acc _ hm hd
    simp [bodyScan, hm, hd]
  | cons q pre ih =>
    intro p post d acc hpre hm hd
    have hq : isPlainData q = false := hpre q (List.mem_cons_self q pre)
    have hpre' : ∀ r ∈ pre, isPlainData r = false :=
      fun r hr => hpre r (List.mem_cons_of_mem q hr)
    simp only [List.cons_append, bodyScan]
    by_cases hqm : q.mimeType = "text/plain"
    · cases hqd : q.body.data with
      | some dd => exact absurd hq (by simp [isPlainData, hqm, hqd])
      | none =>
        rw [if_pos hqm]
        exact ih p post d acc hpre' hm hd
    · rw [if_neg hqm]
      by_cases hqh : q.mimeType = "text/html"
      · rw [if_pos hqh]
        cases hqd : q.body.data with
        | some dd => exact ih p post d (h2t dd) hpre' hm hd
        | none => exact ih p post d acc hpre' hm hd
      · rw [if_neg hqh]
        exact ih p post d acc hpre' hm hd

/-- A scan over parts that are neither plain-with-data nor html-with-data
leaves the accumulated body unchanged. -/
lemma bodyScan_inert (h2t : String → String) :
    ∀ (parts : List MessagePart) (acc : String),
      (∀ q ∈ parts, isPlainData q = false ∧ isHtmlData q = false) →
      bodyScan h2t parts acc = acc := by
  intro parts
  induction parts with
  | nil => intro acc _; rfl
  | cons q rest ih =>
    intro acc hq
    have h1 := hq q (List.mem_cons_self q rest)
    have h2 : ∀ r ∈ rest, isPlainData r = false ∧ isHtmlData r = false :=
      fun r hr => hq r (List.mem_cons_of_mem q hr)
    simp only [bodyScan]
    by_cases hqm : q.mimeType = "text/plain"
    · cases hqd : q.body.data with
      | some dd => exact absurd h1.1 (by simp [isPlainData, hqm, hqd])
      | none =>
        rw [if_pos hqm]
        exact ih acc h2
    · rw [if_neg hqm]
      by_cases hqh : q.mimeType = "text/html"
      · cases hqd : q.body.data with
        | some dd => exact absurd h1.2 (by simp [isHtmlData, hqh, hqd])
        | none =>
          rw [if_pos hqh]
          exact ih acc h2
      · rw [if_neg hqh]
        exact ih acc h2

/-- When no `text/plain` part carries data, the converted text of the last
`text/html` part carrying data is the scan result. -/
lemma bodyScan_html_last (h2t : String → String) :
    ∀ (pre : List MessagePart) (p : MessagePart) (post : List MessagePart)
      (d : String) (acc : String),
      (∀ q ∈ pre ++ p :: post, isPlainData q = false) →
      p.mimeType = "text/html" → p.body.data = some d →
      (∀ q ∈ post, isHtmlData q = false) →
      bodyScan h2t (pre ++ p :: post) acc = h2t d := by
  intro pre
  induction pre with
  | nil =>
    intro p post d acc hplain hm hd hpost
    have hppost : ∀ q ∈ post, isPlainData q = false ∧ isHtmlData q = false :=
      fun q hq => ⟨hplain q (by simp [hq]), hpost q hq⟩
    have hpm : ¬(p.mimeType = "text/plain") := by rw [hm]; decide
    simp only [List.nil_append, bodyScan]
    rw [if_neg hpm, if_pos hm, hd]
    exact bodyScan_inert h2t post (h2t d) hppost
  | cons q pre ih =>
    intro p post d acc hplain hm hd hpost
    have hq : isPlainData q = false := hplain q (List.mem_cons_self q _)
    have hplain' : ∀ r ∈ pre ++ p :: post, isPlainData r = false :=
      fun r hr => hplain r (List.mem_cons_of_mem q hr)
    simp only [List.cons_append, bodyScan]
    by_cases hqm : q.mimeType = "text/plain"
    · cases hqd : q.body.data with
      | some dd => exact absurd hq (by simp [isPlainData, hqm, hqd])
      | none =>
        rw [if_pos hqm]
        exact ih p post d acc hplain' hm hd hpost
    · rw [if_neg hqm]
      by_cases hqh : q.mimeType = "text/html"
      · rw [if_pos hqh]
        cases hqd : q.body.data with
        | some dd => exact ih p post d (h2t dd) hplain' hm hd hpost
        | none => exact ih p post d acc hplain' hm hd hpost
      · rw [if_neg hqh]
        exact ih p post d acc hplain' hm hd hpost

/-! ## String truncation facts (Python `s[:1000]`) -/

/-- `s[:n]` on a string of length at most `n` is the identity. -/
lemma string_take_of_le (s : String) (n : Nat) (h : s.length ≤ n) :
    s.take n = s := by
  cases s with
  | mk l =>
    rw [String.take_eq]
    exact congrArg String.mk (List.take_of_length_le (by simpa using h))

/-- `s[:n]` on a longer string returns exactly `n` characters. -/
lemma string_take_length (s : String) (n : Nat) (h : n ≤ s.length) :
    (s.take n).length = n := by
  cases s with
  | mk l =>
    rw [String.take_eq]
    simpa using Nat.min_eq_left (by simpa using h)

/-! ## One more step fact: any id passing the membership gate is fetched -/

/-- Whenever the loop reaches an id not in the processed set, the very next
action is the fetch of its full details — so an id left unprocessed by one
run is fetched again by the next run that lists it. -/
lemma processOne_fetch_called (cfg : Config) (env : Env) (s : RunState)
    (id : String) (h : id ∉ s.processedIds) :
    id ∈ (processOne cfg env s id).fetchCalls := by
  rcases processOne_inv cfg env s id with
    ⟨hm, -⟩ | ⟨-, he⟩ | ⟨-, he⟩ | ⟨-, _p, -, he⟩ | ⟨-, _p, -, he⟩
  · exact absurd hm h
  all_goals rw [he]; simp

/-! ## Concrete fixtures used by witnesses and counterexamples -/

/-- A configuration with no subject filter, as shipped in `config.py`. -/
def cfgT : Config :=
  { spreadsheetId := "sheet-1", sheetName := "Emails", subjectFilter := "" }

/-- A well-formed single-part message. -/
def msgT : GmailMessage :=
  { payload := some
      { headers :=
          [("From", "alice@example.com"), ("Subject", "Hello"),
           ("Date", "Mon, 1 Jan 2024 10:00:00 +0000")]
        parts := none
        body := { data := some "body text" } } }

/-- The record `parse_email` produces for `msgT`. -/
def parsedT : ParsedEmail :=
  { from_ := "alice@example.com", subject := "Hello"
    date := "Mon, 1 Jan 2024 10:00:00 +0000", content := "body text" }

/-- Environment where every call succeeds and one message is listed. -/
def envOk : Env :=
  { unread := ["m1"]
    fetchResult := fun _ => some msgT
    appendResult := fun _ _ => true
    markResult := fun _ => true
    h2t := fun s => s
    now := "2026-10-12T00:00:00" }

/-- Like `envOk` but the mark-read call reports failure. -/
def envMarkFail : Env := { envOk with markResult := fun _ => false }

/-- Like `envOk` but every sheet append fails (retries exhausted). -/
def envAppendFail : Env := { envOk with appendResult := fun _ _ => false }

/-- Like `envOk` but the full-message fetch returns nothing. -/
def envFetchMiss : Env := { envOk with fetchResult := fun _ => none }

/-- Like `envOk` but the unread listing is empty. -/
def envEmptyList : Env := { envOk with unread := [] }


/-! ## Claims -/

/-- C1: for every message id already present in the ProcessedSet at the
start of a run, the processing loop neither fetches, appends, nor marks
that message read, and the skipped counter is incremented by one for each
such listed id; the ProcessedSet membership test is the first check
performed for every listed id (when it holds, the iteration is exactly a
skip-count update). -/
theorem claim_C1 (cfg : Config) (env : Env) (initIds : Finset String)
    (id : String) (hid : id ∈ initIds) :
    (∀ s : RunState, id ∈ s.processedIds →
        processOne cfg env s id = { s with skippedCount := s.skippedCount + 1 }) ∧
    (id ∉ (List.foldl (processOne cfg env) (initState initIds) env.unread).fetchCalls ∧
      (∀ v, (id, v) ∉
        (List.foldl (processOne cfg env) (initState initIds) env.unread).appendCalls) ∧
      id ∉ (List.foldl (processOne cfg env) (initState initIds) env.unread).markCalls) ∧
    env.unread.countP (fun x => decide (x ∈ initIds)) ≤
      (List.foldl (processOne cfg env) (initState initIds) env.unread).skippedCount := by
  refine ⟨fun s h => processOne_skip_eq cfg env s id h, ?_, ?_⟩
  · exact foldl_no_calls cfg env initIds id hid env.unread (initState initIds)
      (fun a ha => ha) (by simp [initState]) (fun v => by simp [initState])
      (by simp [initState])
  · have := foldl_skipped_ge cfg env initIds env.unread (initState initIds)
      (fun a ha => ha)
    simpa [initState] using this

/-- Witness for C1 at a concrete run: the listed id `m1` is already in the
starting set, and the run records no fetch, append or mark-read call for
it. -/
theorem claim_C1_witness :
    ("m1" ∈ ({"m1"} : Finset String)) ∧
    ("m1" ∉ (List.foldl (processOne cfgT envOk) (initState {"m1"}) envOk.unread).fetchCalls ∧
      (∀ v, ("m1", v) ∉
        (List.foldl (processOne cfgT envOk) (initState {"m1"}) envOk.unread).appendCalls) ∧
      "m1" ∉ (List.foldl (processOne cfgT envOk) (initState {"m1"}) envOk.unread).markCalls) :=
  ⟨by decide, (claim_C1 cfgT envOk {"m1"} "m1" (by decide)).2.1⟩

/-- C2: when the sheet append fails on all retry attempts for a message,
the iteration records only the fetch and the failed append call — the id is
not added to the ProcessedSet, the processed counter is not incremented and
no mark-read call is made; over a whole run with a failing append the id
never enters the set nor the mark-read log, and any later run reaching it
past the membership gate fetches it again. -/
theorem claim_C2 (cfg : Config) (env : Env) (id : String) :
    (∀ (s : RunState) (m : GmailMessage) (parsed : ParsedEmail),
        id ∉ s.processedIds → env.fetchResult id = some m →
        parse_email env.h2t m = some parsed →
        ¬(cfg.subjectFilter ≠ "" ∧ strContains parsed.subject cfg.subjectFilter = false) →
        env.appendResult id (buildRow parsed) = false →
        processOne cfg env s id =
          { s with fetchCalls := s.fetchCalls ++ [id]
                   appendCalls := s.appendCalls ++ [(id, buildRow parsed)] }) ∧
    ((∀ v, env.appendResult id v = false) → ∀ initIds : Finset String, id ∉ initIds →
        id ∉ (List.foldl (processOne cfg env) (initState initIds) env.unread).processedIds ∧
        id ∉ (List.foldl (processOne cfg env) (initState initIds) env.unread).markCalls) ∧
    (∀ (env2 : Env) (s2 : RunState), id ∉ s2.processedIds →
        id ∈ (processOne cfg env2 s2 id).fetchCalls) := by
  refine ⟨?_, ?_, ?_⟩
  · intro s m parsed h hf hp hfil ha
    exact processOne_appendFail_eq cfg env s id h hf hp hfil ha
  · intro hfail initIds hinit
    exact foldl_append_fail_inv cfg env id hfail env.unread (initState initIds)
      (by simpa [initState] using hinit) (by simp [initState])
  · intro env2 s2 h
    exact processOne_fetch_called cfg env2 s2 id h

/-- Witness for C2 at a concrete run where every append fails: the step
leaves the processed set, counters and mark-read log untouched, and the id
is absent from the final processed set. -/
theorem claim_C2_witness :
    (("m1" : String) ∉ (initState (∅ : Finset String)).processedIds ∧
      envAppendFail.fetchResult "m1" = some msgT ∧
      parse_email envAppendFail.h2t msgT = some parsedT ∧
      envAppendFail.appendResult "m1" (buildRow parsedT) = false) ∧
    processOne cfgT envAppendFail (initState ∅) "m1" =
      { initState (∅ : Finset String) with
          fetchCalls := (initState (∅ : Finset String)).fetchCalls ++ ["m1"]
          appendCalls :=
            (initState (∅ : Finset String)).appendCalls ++ [("m1", buildRow parsedT)] } ∧
    "m1" ∉ (List.foldl (processOne cfgT envAppendFail) (initState ∅)
        envAppendFail.unread).processedIds :=
  ⟨⟨by decide, rfl, by decide, rfl⟩,
   (claim_C2 cfgT envAppendFail "m1").1 (initState ∅) msgT parsedT (by decide) rfl
     (by decide) (by decide) rfl,
   ((claim_C2 cfgT envAppendFail "m1").2.1 (fun v => rfl) ∅ (by decide)).1⟩

/-- C3: when the sheet append succeeds, the iteration records the mark-read
call and then adds the id to the ProcessedSet and increments the processed
counter; the Boolean outcome of the mark-read call is never consulted, so a
mark-read failure rolls back neither the append nor the insertion. -/
theorem claim_C3 (cfg : Config) (env : Env) (id : String) :
    (∀ (s : RunState) (m : GmailMessage) (parsed : ParsedEmail),
        id ∉ s.processedIds → env.fetchResult id = some m →
        parse_email env.h2t m = some parsed →
        ¬(cfg.subjectFilter ≠ "" ∧ strContains parsed.subject cfg.subjectFilter = false) →
        env.appendResult id (buildRow parsed) = true →
        processOne cfg env s id =
          { s with fetchCalls := s.fetchCalls ++ [id]
                   appendCalls := s.appendCalls ++ [(id, buildRow parsed)]
                   markCalls := s.markCalls ++ [id]
                   processedIds := insert id s.processedIds
                   processedCount := s.processedCount + 1 }) ∧
    (∀ (mr : String → Bool) (s : RunState),
        processOne cfg { env with markResult := mr } s id = processOne cfg env s id) :=
  ⟨fun s m parsed h hf hp hfil ha =>
      processOne_success_eq cfg env s id h hf hp hfil ha,
   fun mr s => rfl⟩

/-- Witness for C3 at a concrete run where the mark-read call fails: the id
is inserted into the processed set and the processed counter increments all
the same. -/
theorem claim_C3_witness :
    (envMarkFail.markResult "m1" = false ∧
      envMarkFail.appendResult "m1" (buildRow parsedT) = true) ∧
    processOne cfgT envMarkFail (initState ∅) "m1" =
      { initState (∅ : Finset String) with
          fetchCalls := (initState (∅ : Finset String)).fetchCalls ++ ["m1"]
          appendCalls :=
            (initState (∅ : Finset String)).appendCalls ++ [("m1", buildRow parsedT)]
          markCalls := (initState (∅ : Finset String)).markCalls ++ ["m1"]
          processedIds := insert "m1" (initState (∅ : Finset String)).processedIds
          processedCount := (initState (∅ : Finset String)).processedCount + 1 } :=
  ⟨⟨rfl, rfl⟩,
   (claim_C3 cfgT envMarkFail "m1").1 (initState ∅) msgT parsedT (by decide) rfl
     (by decide) (by decide) rfl⟩

/-- C4 (amended): on a non-empty unread listing the run ends by writing the
full ProcessedSet — whether or not any new ids were added — while on an
empty unread listing the method returns early and does not rewrite the
state file (and reports no counters). -/
theorem claim_C4 (cfg : Config) (env : Env) (initIds : Finset String) :
    (env.unread ≠ [] →
      process_emails cfg env initIds =
        (some (List.foldl (processOne cfg env) (initState initIds) env.unread),
         some (save_file
           (List.foldl (processOne cfg env) (initState initIds) env.unread).processedIds
           env.now))) ∧
    (env.unread = [] → process_emails cfg env initIds = (none, none)) := by
  constructor
  · intro h
    simp [process_emails, h]
  · intro h
    simp [process_emails, h]

/-- Counterexample to C4 as stated: on an empty unread listing the run
returns early — the state file is not rewritten at all (no `StateFile` is
produced), although the starting ProcessedSet is non-empty. -/
theorem claim_C4_counterexample :
    envEmptyList.unread = [] ∧ ({"old"} : Finset String) ≠ ∅ ∧
    process_emails cfgT envEmptyList {"old"} = (none, none) :=
  ⟨rfl, by decide, rfl⟩

/-- Witness for C4 (amended) at a concrete run whose only listed id is
already processed: nothing new is added, yet the state file is written with
the full (unchanged) set. -/
theorem claim_C4_witness :
    envOk.unread ≠ [] ∧
    process_emails cfgT envOk {"m1"} =
      (some (List.foldl (processOne cfgT envOk) (initState {"m1"}) envOk.unread),
       some (save_file
         (List.foldl (processOne cfgT envOk) (initState {"m1"}) envOk.unread).processedIds
         envOk.now)) :=
  ⟨by decide, (claim_C4 cfgT envOk {"m1"}).1 (by decide)⟩

/-- The HTML-to-text conversion used in the C5 counterexample: any concrete
function exhibits the behaviour, since the scan applies it to the html
part's data. -/
def cexH2t : String → String := fun s => "HTML:" ++ s

/-- A `text/plain` part whose body carries no `data` field. -/
def cexPlainPart : MessagePart := { mimeType := "text/plain", body := { data := none } }

/-- A `text/html` part carrying data. -/
def cexHtmlPart : MessagePart :=
  { mimeType := "text/html", body := { data := some "<p>hello</p>" } }

/-- A multi-part payload containing a `text/plain` part followed by a
`text/html` part. -/
def cexPayload : Payload :=
  { headers := [("From", "bob@example.com")]
    parts := some [cexPlainPart, cexHtmlPart]
    body := { data := none } }

/-- C5 (amended): scanning is in provider order; a `text/plain` part
carrying body data wins immediately and scanning stops (so with such a part
present, the result is the plain text, not the HTML conversion, regardless
of order); when no `text/plain` part carries data, the converted text of
the last `text/html` part carrying data is used. -/
theorem claim_C5 (h2t : String → String) (payload : Payload)
    (pre post : List MessagePart) (p : MessagePart) (d : String) :
    (payload.parts = some (pre ++ p :: post) →
      (∀ q ∈ pre, isPlainData q = false) →
      p.mimeType = "text/plain" → p.body.data = some d →
      get_email_body h2t payload = pyStrip d) ∧
    (payload.parts = some (pre ++ p :: post) →
      (∀ q ∈ pre ++ p :: post, isPlainData q = false) →
      p.mimeType = "text/html" → p.body.data = some d →
      (∀ q ∈ post, isHtmlData q = false) →
      get_email_body h2t payload = pyStrip (h2t d)) := by
  constructor
  · intro hparts hpre hm hd
    simp only [get_email_body, hparts]
    rw [bodyScan_plain_wins h2t pre p post d "" hpre hm hd]
  · intro hparts hplain hm hd hpost
    simp only [get_email_body, hparts]
    rw [bodyScan_html_last h2t pre p post d "" hplain hm hd hpost]

/-- Counterexample to C5 as stated: a multi-part message containing both a
`text/plain` part (first, but with no `data` field) and a `text/html` part
yields the HTML-derived text — the scan does not stop at the `text/plain`
part and the result is not plain-text content. -/
theorem claim_C5_counterexample :
    cexPayload.parts = some [cexPlainPart, cexHtmlPart] ∧
    cexPlainPart.mimeType = "text/plain" ∧
    cexPlainPart.body.data = none ∧
    cexHtmlPart.mimeType = "text/html" ∧
    get_email_body cexH2t cexPayload = "HTML:<p>hello</p>" :=
  ⟨rfl, rfl, rfl, rfl, by decide⟩

/-- Witness for C5 (amended): a `text/html` part first and a data-carrying
`text/plain` part second still yield the plain text. -/
theorem claim_C5_witness :
    ((⟨some
        ⟨[("From", "bob@example.com")],
         some [cexHtmlPart, ⟨"text/plain", ⟨some "plain wins"⟩⟩],
         ⟨none⟩⟩⟩ : GmailMessage).payload.get rfl).parts =
      some ([cexHtmlPart] ++ (⟨"text/plain", ⟨some "plain wins"⟩⟩ : MessagePart) :: []) ∧
    get_email_body cexH2t
      ⟨[("From", "bob@example.com")],
       some [cexHtmlPart, ⟨"text/plain", ⟨some "plain wins"⟩⟩],
       ⟨none⟩⟩ = pyStrip "plain wins" :=
  ⟨rfl,
   (claim_C5 cexH2t
      ⟨[("From", "bob@example.com")],
       some [cexHtmlPart, ⟨"text/plain", ⟨some "plain wins"⟩⟩],
       ⟨none⟩⟩
      [cexHtmlPart] [] ⟨"text/plain", ⟨some "plain wins"⟩⟩ "plain wins").1
     rfl (by decide) rfl rfl⟩

/-- C6: the appended row is `[sender, subject, date, body]` with the body
truncated by `[:1000]` — unchanged when it has at most 1000 characters,
exactly the first 1000 characters (length exactly 1000) when longer — and
the other three cells passed through untouched. -/
theorem claim_C6 (parsed : ParsedEmail) :
    buildRow parsed =
      [parsed.from_, parsed.subject, parsed.date, parsed.content.take 1000] ∧
    (parsed.content.length ≤ 1000 →
      buildRow parsed = [parsed.from_, parsed.subject, parsed.date, parsed.content]) ∧
    (1000 < parsed.content.length →
      ∃ b, buildRow parsed = [parsed.from_, parsed.subject, parsed.date, b] ∧
        b = parsed.content.take 1000 ∧ b.length = 1000) := by
  refine ⟨rfl, ?_, ?_⟩
  · intro h
    simp only [buildRow, string_take_of_le parsed.content 1000 h]
  · intro h
    exact ⟨parsed.content.take 1000, rfl, rfl,
      string_take_length parsed.content 1000 (Nat.le_of_lt h)⟩

/-- A 1001-character body. -/
def longContent : String := String.mk (List.replicate 1001 'a')

/-- A parsed message with an over-long body. -/
def parsedLong : ParsedEmail := { parsedT with content := longContent }

set_option maxRecDepth 4096 in
/-- Witness for C6: on a 1001-character body the fourth cell has exactly
1000 characters. -/
theorem claim_C6_witness :
    1000 < parsedLong.content.length ∧
    ∃ b, buildRow parsedLong = [parsedLong.from_, parsedLong.subject, parsedLong.date, b] ∧
      b = parsedLong.content.take 1000 ∧ b.length = 1000 :=
  ⟨by decide, (claim_C6 parsedLong).2.2 (by decide)⟩

/-- C7: saving the ProcessedSet and loading it back yields the identical
set, and the loaded set does not depend on the order (or multiplicity) in
which ids were serialized. -/
theorem claim_C7 (ids : Finset String) (now : String) :
    load_state (some (save_file ids now)) = ids ∧
    (∀ (l1 l2 : List String) (t1 t2 : String), l1.toFinset = l2.toFinset →
      load_state (some ⟨l1, t1⟩) = load_state (some ⟨l2, t2⟩)) := by
  constructor
  · simp [load_state, save_file, Finset.sort_toFinset]
  · intro l1 l2 t1 t2 h
    simpa [load_state] using h

/-- Witness for C7: a two-element set round-trips, and two differently
ordered serializations load to the same set. -/
theorem claim_C7_witness :
    load_state (some (save_file {"a", "b"} "t0")) = {"a", "b"} ∧
    (["a", "b"].toFinset = ["b", "a", "a"].toFinset ∧
      load_state (some ⟨["a", "b"], "t1"⟩) = load_state (some ⟨["b", "a", "a"], "t2"⟩)) :=
  ⟨(claim_C7 {"a", "b"} "t0").1,
   ⟨by decide, (claim_C7 {"a", "b"} "t0").2 ["a", "b"] ["b", "a", "a"] "t1" "t2" (by decide)⟩⟩

/-- C8: each retried gateway call makes at most `max_retries` attempts
(defaults: 3 attempts, 2-second delay), sleeps the fixed delay between
attempts (first success after `k` failures costs `k` sleeps), returns the
first successful result, and on exhaustion the unread listing re-raises the
provider error while the sheet append returns the failure signal. -/
theorem claim_C8 (api : Nat → Option (List String)) (bapi : Nat → Bool)
    (sid sname : String) (values : List String) (maxR d : Nat) :
    MAX_RETRIES = 3 ∧ RETRY_DELAY = 2 ∧
    (get_unread_emails api maxR d).attempts ≤ maxR ∧
    (append_email_row sid sname values bapi maxR d).attempts ≤ maxR ∧
    (∀ k v, k < maxR → (∀ j, j < k → api j = none) → api k = some v →
      get_unread_emails api maxR d = ⟨Except.ok v, k + 1, k * d⟩) ∧
    (0 < maxR → (∀ j, j < maxR → api j = none) →
      get_unread_emails api maxR d =
        ⟨Except.error "GoogleAPIError", maxR, (maxR - 1) * d⟩) ∧
    (∀ k, k < maxR → (∀ j, j < k → bapi j = false) → bapi k = true →
      append_email_row sid sname values bapi maxR d = ⟨true, k + 1, k * d⟩) ∧
    (0 < maxR → (∀ j, j < maxR → bapi j = false) →
      append_email_row sid sname values bapi maxR d = ⟨false, maxR, (maxR - 1) * d⟩) := by
  refine ⟨rfl, rfl, getUnreadGo_attempts_le api d maxR 0,
    appendGo_attempts_le bapi d maxR 0, ?_, ?_, ?_, ?_⟩
  · intro k v hk hfail hsucc
    exact getUnreadGo_success api d maxR 0 k v hk
      (fun j hj => by simpa using hfail j hj) (by simpa using hsucc)
  · intro hpos hfail
    exact getUnreadGo_exhaust api d maxR 0 hpos (fun j hj => by simpa using hfail j hj)
  · intro k hk hfail hsucc
    exact appendGo_success bapi d maxR 0 k hk
      (fun j hj => by simpa using hfail j hj) (by simpa using hsucc)
  · intro hpos hfail
    exact appendGo_exhaust bapi d maxR 0 hpos (fun j hj => by simpa using hfail j hj)

/-- A listing oracle that raises on attempt 0 and succeeds on attempt 1. -/
def apiW : Nat → Option (List String) := fun n => if n = 1 then some ["x"] else none

/-- An append oracle that fails on every attempt. -/
def bapiW : Nat → Bool := fun _ => false

/-- Witness for C8: with the default budget, a listing that succeeds on its
second attempt returns that result after 2 attempts and one 2-second sleep;
an always-failing append returns `false` after 3 attempts and 4 seconds of
sleeping. -/
theorem claim_C8_witness :
    (1 < MAX_RETRIES ∧ apiW 1 = some ["x"] ∧ 0 < MAX_RETRIES) ∧
    get_unread_emails apiW MAX_RETRIES RETRY_DELAY = ⟨Except.ok ["x"], 2, 2⟩ ∧
    append_email_row "s" "Emails" [] bapiW MAX_RETRIES RETRY_DELAY = ⟨false, 3, 4⟩ :=
  ⟨⟨by decide, rfl, by decide⟩,
   (claim_C8 apiW bapiW "s" "Emails" [] MAX_RETRIES RETRY_DELAY).2.2.2.2.1 1 ["x"]
     (by decide) (fun j hj => by
       have hj0 : j = 0 := by omega
       subst hj0; rfl) rfl,
   (claim_C8 apiW bapiW "s" "Emails" [] MAX_RETRIES RETRY_DELAY).2.2.2.2.2.2.2
     (by decide) (fun j hj => rfl)⟩

/-- C9: the unread-listing request carries `maxResults = 100`, so the
endpoint returns the first at-most-100 unread ids; for a duplicate-free
unread backlog, every id beyond the first 100 is invisible to the run. -/
theorem claim_C9 (serverUnread : List String) :
    unreadListRequest.maxResults = 100 ∧ unreadListRequest.q = "is:unread" ∧
    gmailListEndpoint serverUnread unreadListRequest = serverUnread.take 100 ∧
    (gmailListEndpoint serverUnread unreadListRequest).length ≤ 100 ∧
    (serverUnread.Nodup → ∀ x ∈ serverUnread.drop 100,
      x ∉ gmailListEndpoint serverUnread unreadListRequest) := by
  refine ⟨rfl, rfl, rfl, ?_, ?_⟩
  · simpa [gmailListEndpoint, unreadListRequest] using
      List.length_take_le 100 serverUnread
  · intro hnodup x hdrop hmem
    have hsplit : (serverUnread.take 100 ++ serverUnread.drop 100).Nodup := by
      rw [List.take_append_drop]; exact hnodup
    exact (List.nodup_append.mp hsplit).2.2 hmem hdrop

/-- A backlog of 101 distinct ids. -/
def serverW : List String := (List.range 101).map (fun n => toString n)

/-- Witness for C9: with 101 distinct unread ids, the 101st is not in the
listing the run sees. -/
theorem claim_C9_witness :
    serverW.Nodup ∧
    ∀ x ∈ serverW.drop 100, x ∉ gmailListEndpoint serverW unreadListRequest :=
  ⟨by decide, (claim_C9 serverW).2.2.2.2 (by decide)⟩

/-- C10: when the fetch of a message's details returns nothing, or parsing
fails, the iteration only records the fetch call — neither counter is
incremented and nothing else changes — and consequently a run can end with
`processed + skipped` strictly below the number of listed ids. -/
theorem claim_C10 (cfg : Config) (env : Env) (id : String) :
    (∀ s : RunState, id ∉ s.processedIds → env.fetchResult id = none →
      processOne cfg env s id = { s with fetchCalls := s.fetchCalls ++ [id] }) ∧
    (∀ (s : RunState) (m : GmailMessage), id ∉ s.processedIds →
      env.fetchResult id = some m → parse_email env.h2t m = none →
      processOne cfg env s id = { s with fetchCalls := s.fetchCalls ++ [id] }) ∧
    (∃ st, (process_emails cfgT envFetchMiss ∅).1 = some st ∧
      st.processedCount + st.skippedCount < envFetchMiss.unread.length) := by
  refine ⟨fun s h hf => processOne_fetchMiss_eq cfg env s id h hf,
    fun s m h hf hp => processOne_parseMiss_eq cfg env s id h hf hp, ?_⟩
  refine ⟨{ initState (∅ : Finset String) with fetchCalls := ["m1"] }, ?_, by decide⟩
  have hstep : processOne cfgT envFetchMiss (initState ∅) "m1" =
      { initState (∅ : Finset String) with
          fetchCalls := (initState (∅ : Finset String)).fetchCalls ++ ["m1"] } :=
    processOne_fetchMiss_eq cfgT envFetchMiss (initState ∅) "m1" (by decide) rfl
  show (process_emails cfgT envFetchMiss ∅).1 = _
  rw [show process_emails cfgT envFetchMiss ∅ =
      (some (List.foldl (processOne cfgT envFetchMiss) (initState ∅) envFetchMiss.unread),
       some (save_file
         (List.foldl (processOne cfgT envFetchMiss) (initState ∅)
           envFetchMiss.unread).processedIds envFetchMiss.now)) from by
    simp [process_emails, envFetchMiss, envOk]]
  show some (List.foldl (processOne cfgT envFetchMiss) (initState ∅)
      envFetchMiss.unread) = _
  rw [show envFetchMiss.unread = ["m1"] from rfl]
  rw [List.foldl_cons, hstep, List.foldl_nil]
  rfl

/-- Witness for C10: a fetch miss on an unprocessed id records only the
fetch call. -/
theorem claim_C10_witness :
    (("m1" : String) ∉ (initState (∅ : Finset String)).processedIds ∧
      envFetchMiss.fetchResult "m1" = none) ∧
    processOne cfgT envFetchMiss (initState ∅) "m1" =
      { initState (∅ : Finset String) with
          fetchCalls := (initState (∅ : Finset String)).fetchCalls ++ ["m1"] } :=
  ⟨⟨by decide, rfl⟩,
   (claim_C10 cfgT envFetchMiss "m1").1 (initState ∅) (by decide) rfl⟩

end GmailToSheets
